import Mathlib

/-!
Shallow embedding of the on-chain subscription and micropayment ledger
(`SubscriptionManager`, Solidity) of this repository, together with the
external ERC-20 token it calls into, and proofs of the specified
properties.

Modelling conventions:
* `address` is `Nat`, with `0` playing the role of `address(0)`.
* `bytes32` identifiers are `Nat`; the `keccak256` derivations are replaced
  by an injective pairing of the same input tuple (the contract guards
  against collisions with an existence check in any case).
* `uint256` arithmetic is `Nat`.  Solidity 0.8 checked arithmetic reverts
  on overflow/underflow instead of wrapping, so unbounded `Nat` is a
  faithful model of every non-reverting execution; the one truncating
  subtraction (`amount - platformCut`) is only reached with
  `platformCut <= amount`, where `Nat` subtraction agrees with `uint256`.
* Each external entry point is a function
  `args -> State -> Except Err (State × List Event)`; `Except.error`
  models an EVM revert, which rolls back all state writes and discards
  all emitted logs, so the post-state of a failed call is the pre-state.
* The OpenZeppelin `nonReentrant` modifier is modelled by the `locked`
  flag in `State`: a guarded entry point invoked while `locked = true`
  fails with `Err.Reentrant`, otherwise its body runs with
  `locked := true` and the flag is cleared on successful exit.
* The external USDC token is modelled with standard ERC-20 semantics:
  `transfer` needs a sufficient sender balance, `transferFrom`
  additionally needs (and consumes) allowance for the spender.
-/

namespace SubMgr

/-- An EVM address; `0` stands for `address(0)`. -/
abbrev Addr := Nat

/-- Pointwise update of a map with `Nat`-like keys. -/
def mapUpd {β : Type} (f : Nat → β) (k : Nat) (v : β) : Nat → β :=
  fun x => if x = k then v else f x

/-- External ERC-20 token state: balances and allowances. -/
structure Token where
  balances : Addr → Nat
  allowance : Addr → Addr → Nat

/-- ERC-20 `transfer(to, v)` issued by `fro`: moves `v` if the sender
balance suffices, otherwise fails (`none` = the ledger sees a failed
transfer). -/
def Token.transfer (t : Token) (src dst : Addr) (v : Nat) : Option Token :=
  if v ≤ t.balances src then
    let b1 := mapUpd t.balances src (t.balances src - v)
    some { t with balances := mapUpd b1 dst (b1 dst + v) }
  else
    none

/-- ERC-20 `transferFrom(fro, to, v)` issued by `spender`: needs and
consumes allowance `fro → spender`, then moves the funds. -/
def Token.transferFrom (t : Token) (spender src dst : Addr) (v : Nat) :
    Option Token :=
  if v ≤ t.allowance src spender then
    match t.transfer src dst v with
    | some t1 =>
        some { t1 with
                 allowance := fun o sp =>
                   if o = src ∧ sp = spender then t.allowance src spender - v
                   else t.allowance o sp }
    | none => none
  else
    none

/-- The `Subscription` struct of the contract. -/
structure Subscription where
  subscriber : Addr
  creator : Addr
  amount : Nat
  interval : Nat
  nextPaymentDue : Nat
  active : Bool
  totalPaid : Nat
  paymentsCount : Nat
deriving Repr, DecidableEq

/-- The `Escrow` struct of the contract. -/
structure Escrow where
  payer : Addr
  creator : Addr
  amount : Nat
  createdAt : Nat
  released : Bool
  contentId : String
deriving Repr, DecidableEq

/-- The revert reasons of the contract (custom errors, the OpenZeppelin
reentrancy-guard and ownable reverts, and the fee-cap `require`). -/
inductive Err where
  | UnauthorizedAgent
  | UnauthorizedUser
  | InvalidAddress
  | InvalidAmount
  | InvalidInterval
  | SubscriptionNotActive
  | SubscriptionAlreadyExists
  | PaymentNotDue
  | NoBalanceToWithdraw
  | TransferFailed
  | EscrowAlreadyExists
  | EscrowAlreadyReleased
  | Reentrant
  | NotOwner
  | FeeTooHigh
deriving Repr, DecidableEq

/-- The events emitted by the contract. -/
inductive Event where
  | SubscriptionCreated (subscriptionId : Nat) (subscriber creator : Addr)
      (amount interval : Nat)
  | SubscriptionPaymentProcessed (subscriptionId : Nat)
      (subscriber creator : Addr) (amount nextPaymentDue : Nat)
  | SubscriptionCancelled (subscriptionId : Nat) (subscriber creator : Addr)
  | TipSent (src dst : Addr) (amount : Nat) (contentId : String)
  | MicropaymentEscrowed (escrowId : Nat) (payer creator : Addr)
      (amount : Nat) (contentId : String)
  | MicropaymentReleased (escrowId : Nat) (creator : Addr) (amount : Nat)
  | CreatorWithdrawal (creator : Addr) (amount : Nat)
  | PlatformFeeUpdated (oldFee newFee : Nat)
  | AgentWalletUpdated (oldAgent newAgent : Addr)
  | OwnershipTransferred (oldOwner newOwner : Addr)
deriving Repr, DecidableEq

/-- Full ledger state: the contract storage, the reentrancy-guard flag,
the contract address, and the external token state. -/
structure State where
  owner : Addr
  agentWallet : Addr
  platformFee : Nat
  locked : Bool
  subscriptions : Nat → Subscription
  userSubscriptions : Addr → List Nat
  creatorSubscriptions : Addr → List Nat
  escrows : Nat → Escrow
  creatorBalances : Addr → Nat
  totalTipsReceived : Addr → Nat
  contractAddr : Addr
  token : Token

/-- Constant `FEE_DENOMINATOR = 10000`. -/
def FEE_DENOMINATOR : Nat := 10000

/-- Seconds in `1 days`, the minimum subscription interval. -/
def ONE_DAY : Nat := 86400

/-- The fee split used by every settled payment:
`platformCut = amount * feeBps / 10000` (integer division),
`creatorCut = amount - platformCut`. -/
def split (amount feeBps : Nat) : Nat × Nat :=
  let platformCut := amount * feeBps / FEE_DENOMINATOR
  (platformCut, amount - platformCut)

/-- Injective stand-in for the `keccak256(abi.encodePacked(subscriber,
creator, block.timestamp, amount))` subscription identifier. -/
def subIdOf (subscriber creator now amount : Nat) : Nat :=
  Nat.pair subscriber (Nat.pair creator (Nat.pair now amount))

/-- A concrete numeric encoding of a content-id string, used in the
escrow-identifier derivation. -/
def strEnc (cid : String) : Nat :=
  cid.foldl (fun h c => h * 1114112 + c.toNat) 1

/-- Injective stand-in for the `keccak256(abi.encodePacked(msg.sender,
creator, contentId, block.timestamp))` escrow identifier. -/
def escIdOf (payer creator : Addr) (contentId : String) (now : Nat) : Nat :=
  Nat.pair payer (Nat.pair creator (Nat.pair (strEnc contentId) now))

/-- The zero value of a `Subscription` storage slot. -/
def emptySub : Subscription :=
  ⟨0, 0, 0, 0, 0, false, 0, 0⟩

/-- The zero value of an `Escrow` storage slot. -/
def emptyEscrow : Escrow :=
  ⟨0, 0, 0, 0, false, ""⟩

/-- The state produced by the constructor (deployer becomes owner,
`platformFee = 250`, all mappings empty); the constructor itself reverts
on a zero token or agent address, captured by the hypotheses of
`Reachable.init` below. -/
def initialState (deployer agent caddr : Addr) (tok : Token) : State :=
  { owner := deployer
    agentWallet := agent
    platformFee := 250
    locked := false
    subscriptions := fun _ => emptySub
    userSubscriptions := fun _ => []
    creatorSubscriptions := fun _ => []
    escrows := fun _ => emptyEscrow
    creatorBalances := fun _ => 0
    totalTipsReceived := fun _ => 0
    contractAddr := caddr
    token := tok }

/-- Entry point `createSubscription(subscriber, creator, amount, interval)`,
modifiers `onlyAgent nonReentrant`; returns the new subscription id. -/
def createSubscription (caller subscriber creator : Addr)
    (amount interval now : Nat) (s : State) :
    Except Err (State × List Event × Nat) :=
  if caller ≠ s.agentWallet then .error .UnauthorizedAgent
  else if s.locked then .error .Reentrant
  else
    let s1 : State := { s with locked := true }
    if creator = 0 then .error .InvalidAddress
    else if subscriber = 0 then .error .InvalidAddress
    else if amount = 0 then .error .InvalidAmount
    else if interval < ONE_DAY then .error .InvalidInterval
    else
      let subscriptionId := subIdOf subscriber creator now amount
      if (s1.subscriptions subscriptionId).subscriber ≠ 0 then
        .error .SubscriptionAlreadyExists
      else
        let cuts := split amount s1.platformFee
        let creatorAmount := cuts.2
        match s1.token.transferFrom s1.contractAddr subscriber s1.contractAddr amount with
        | none => .error .TransferFailed
        | some tok =>
          let newSub : Subscription :=
            { subscriber := subscriber
              creator := creator
              amount := amount
              interval := interval
              nextPaymentDue := now + interval
              active := true
              totalPaid := amount
              paymentsCount := 1 }
          let s2 : State :=
            { s1 with
                token := tok
                creatorBalances :=
                  mapUpd s1.creatorBalances creator
                    (s1.creatorBalances creator + creatorAmount)
                subscriptions := mapUpd s1.subscriptions subscriptionId newSub
                userSubscriptions :=
                  mapUpd s1.userSubscriptions subscriber
                    (s1.userSubscriptions subscriber ++ [subscriptionId])
                creatorSubscriptions :=
                  mapUpd s1.creatorSubscriptions creator
                    (s1.creatorSubscriptions creator ++ [subscriptionId]) }
          .ok ({ s2 with locked := false },
               [Event.SubscriptionCreated subscriptionId subscriber creator
                  amount interval,
                Event.SubscriptionPaymentProcessed subscriptionId subscriber
                  creator amount (now + interval)],
               subscriptionId)

/-- Entry point `processSubscriptionPayment(subscriptionId)`, modifiers
`onlyAgent nonReentrant`. -/
def processSubscriptionPayment (caller : Addr) (subscriptionId now : Nat)
    (s : State) : Except Err (State × List Event) :=
  if caller ≠ s.agentWallet then .error .UnauthorizedAgent
  else if s.locked then .error .Reentrant
  else
    let s1 : State := { s with locked := true }
    let sub := s1.subscriptions subscriptionId
    if ¬ sub.active then .error .SubscriptionNotActive
    else if now < sub.nextPaymentDue then .error .PaymentNotDue
    else
      let cuts := split sub.amount s1.platformFee
      let creatorAmount := cuts.2
      match s1.token.transferFrom s1.contractAddr sub.subscriber s1.contractAddr sub.amount with
      | none => .error .TransferFailed
      | some tok =>
        let newSub : Subscription :=
          { sub with
              nextPaymentDue := now + sub.interval
              totalPaid := sub.totalPaid + sub.amount
              paymentsCount := sub.paymentsCount + 1 }
        let s2 : State :=
          { s1 with
              token := tok
              creatorBalances :=
                mapUpd s1.creatorBalances sub.creator
                  (s1.creatorBalances sub.creator + creatorAmount)
              subscriptions := mapUpd s1.subscriptions subscriptionId newSub }
        .ok ({ s2 with locked := false },
             [Event.SubscriptionPaymentProcessed subscriptionId sub.subscriber
                sub.creator sub.amount (now + sub.interval)])

/-- Entry point `cancelSubscription(subscriptionId)`: callable by the subscriber or
the owner; note that in the source this entry point has NO
`nonReentrant` modifier. -/
def cancelSubscription (caller : Addr) (subscriptionId : Nat) (s : State) :
    Except Err (State × List Event) :=
  let sub := s.subscriptions subscriptionId
  if caller ≠ sub.subscriber ∧ caller ≠ s.owner then .error .UnauthorizedUser
  else if ¬ sub.active then .error .SubscriptionNotActive
  else
    .ok ({ s with
             subscriptions :=
               mapUpd s.subscriptions subscriptionId { sub with active := false } },
         [Event.SubscriptionCancelled subscriptionId sub.subscriber sub.creator])

/-- Entry point `sendTip(user, creator, amount, contentId)`, modifiers
`onlyAgent nonReentrant`. -/
def sendTip (caller user creator : Addr) (amount : Nat) (contentId : String)
    (s : State) : Except Err (State × List Event) :=
  if caller ≠ s.agentWallet then .error .UnauthorizedAgent
  else if s.locked then .error .Reentrant
  else
    let s1 : State := { s with locked := true }
    if creator = 0 then .error .InvalidAddress
    else if user = 0 then .error .InvalidAddress
    else if amount = 0 then .error .InvalidAmount
    else
      let cuts := split amount s1.platformFee
      let creatorAmount := cuts.2
      match s1.token.transferFrom s1.contractAddr user s1.contractAddr amount with
      | none => .error .TransferFailed
      | some tok =>
        let s2 : State :=
          { s1 with
              token := tok
              creatorBalances :=
                mapUpd s1.creatorBalances creator
                  (s1.creatorBalances creator + creatorAmount)
              totalTipsReceived :=
                mapUpd s1.totalTipsReceived creator
                  (s1.totalTipsReceived creator + amount) }
        .ok ({ s2 with locked := false },
             [Event.TipSent user creator amount contentId])

/-- Entry point `createMicropaymentEscrow(creator, amount, contentId)`, modifier
`nonReentrant`; returns the new escrow id. -/
def createMicropaymentEscrow (caller creator : Addr) (amount : Nat)
    (contentId : String) (now : Nat) (s : State) :
    Except Err (State × List Event × Nat) :=
  if s.locked then .error .Reentrant
  else
    let s1 : State := { s with locked := true }
    if creator = 0 then .error .InvalidAddress
    else if amount = 0 then .error .InvalidAmount
    else
      let escrowId := escIdOf caller creator contentId now
      if (s1.escrows escrowId).payer ≠ 0 then .error .EscrowAlreadyExists
      else
        match s1.token.transferFrom s1.contractAddr caller s1.contractAddr amount with
        | none => .error .TransferFailed
        | some tok =>
          let newEsc : Escrow :=
            { payer := caller
              creator := creator
              amount := amount
              createdAt := now
              released := false
              contentId := contentId }
          let s2 : State :=
            { s1 with
                token := tok
                escrows := mapUpd s1.escrows escrowId newEsc }
          .ok ({ s2 with locked := false },
               [Event.MicropaymentEscrowed escrowId caller creator amount
                  contentId],
               escrowId)

/-- Entry point `releaseMicropayment(escrowId)`, modifier `nonReentrant`; callable by
the escrow payer or the owner; credits the creator cut internally (no
token movement at release time). -/
def releaseMicropayment (caller : Addr) (escrowId : Nat) (s : State) :
    Except Err (State × List Event) :=
  if s.locked then .error .Reentrant
  else
    let s1 : State := { s with locked := true }
    let escrow := s1.escrows escrowId
    if caller ≠ escrow.payer ∧ caller ≠ s1.owner then .error .UnauthorizedUser
    else if escrow.released then .error .EscrowAlreadyReleased
    else
      let cuts := split escrow.amount s1.platformFee
      let creatorAmount := cuts.2
      let s2 : State :=
        { s1 with
            escrows := mapUpd s1.escrows escrowId { escrow with released := true }
            creatorBalances :=
              mapUpd s1.creatorBalances escrow.creator
                (s1.creatorBalances escrow.creator + creatorAmount) }
      .ok ({ s2 with locked := false },
           [Event.MicropaymentReleased escrowId escrow.creator creatorAmount])

/-- The ledger state at the instant `withdrawCreatorBalance` issues its
external token transfer: the guard is held and the caller's balance is
already zeroed (checks-effects-interactions ordering of the source). -/
def withdrawMidState (caller : Addr) (s : State) : State :=
  { s with
      locked := true
      creatorBalances := mapUpd s.creatorBalances caller 0 }

/-- Entry point `withdrawCreatorBalance()`, modifier `nonReentrant`: reverts
`NoBalanceToWithdraw` on a zero balance, zeroes the balance BEFORE the
external transfer, then pays the caller exactly the prior balance. -/
def withdrawCreatorBalance (caller : Addr) (s : State) :
    Except Err (State × List Event) :=
  if s.locked then .error .Reentrant
  else
    let balance := s.creatorBalances caller
    if balance = 0 then .error .NoBalanceToWithdraw
    else
      let s2 := withdrawMidState caller s
      match s2.token.transfer s2.contractAddr caller balance with
      | none => .error .TransferFailed
      | some tok =>
        .ok ({ s2 with locked := false, token := tok },
             [Event.CreatorWithdrawal caller balance])

/-- Entry point `withdrawPlatformFees(amount)`, modifiers `onlyOwner nonReentrant`:
the source simply transfers `amount` of the contract's token balance to
the owner — there is no platform-fee accumulator and no bookkeeping
check, and no event is emitted. -/
def withdrawPlatformFees (caller : Addr) (amount : Nat) (s : State) :
    Except Err (State × List Event) :=
  if caller ≠ s.owner then .error .NotOwner
  else if s.locked then .error .Reentrant
  else
    let s1 : State := { s with locked := true }
    match s1.token.transfer s1.contractAddr s1.owner amount with
    | none => .error .TransferFailed
    | some tok =>
      .ok ({ s1 with locked := false, token := tok }, [])

/-- Entry point `setAgentWallet(newAgent)`, modifier `onlyOwner`. -/
def setAgentWallet (caller newAgent : Addr) (s : State) :
    Except Err (State × List Event) :=
  if caller ≠ s.owner then .error .NotOwner
  else if newAgent = 0 then .error .InvalidAddress
  else
    .ok ({ s with agentWallet := newAgent },
         [Event.AgentWalletUpdated s.agentWallet newAgent])

/-- Entry point `updatePlatformFee(newFee)`, modifier `onlyOwner`, with the
`require(newFee <= 1000)` fee cap. -/
def updatePlatformFee (caller : Addr) (newFee : Nat) (s : State) :
    Except Err (State × List Event) :=
  if caller ≠ s.owner then .error .NotOwner
  else if 1000 < newFee then .error .FeeTooHigh
  else
    .ok ({ s with platformFee := newFee },
         [Event.PlatformFeeUpdated s.platformFee newFee])

/-- OpenZeppelin `Ownable.transferOwnership(newOwner)`. -/
def transferOwnership (caller newOwner : Addr) (s : State) :
    Except Err (State × List Event) :=
  if caller ≠ s.owner then .error .NotOwner
  else if newOwner = 0 then .error .InvalidAddress
  else
    .ok ({ s with owner := newOwner },
         [Event.OwnershipTransferred s.owner newOwner])

/-- OpenZeppelin `Ownable.renounceOwnership()`. -/
def renounceOwnership (caller : Addr) (s : State) :
    Except Err (State × List Event) :=
  if caller ≠ s.owner then .error .NotOwner
  else
    .ok ({ s with owner := 0 },
         [Event.OwnershipTransferred s.owner 0])

/-- One external call into the ledger: an entry point together with its
caller, arguments and the block timestamp where the entry point reads it. -/
inductive Act where
  | createSub (caller subscriber creator : Addr) (amount interval now : Nat)
  | processPayment (caller : Addr) (subscriptionId now : Nat)
  | cancelSub (caller : Addr) (subscriptionId : Nat)
  | tip (caller user creator : Addr) (amount : Nat) (contentId : String)
  | createEscrow (caller creator : Addr) (amount : Nat) (contentId : String)
      (now : Nat)
  | releaseEscrow (caller : Addr) (escrowId : Nat)
  | withdrawCreator (caller : Addr)
  | withdrawFees (caller : Addr) (amount : Nat)
  | setAgent (caller newAgent : Addr)
  | setFee (caller : Addr) (newFee : Nat)
  | transferOwner (caller newOwner : Addr)
  | renounceOwner (caller : Addr)
deriving Repr, DecidableEq

/-- Run one external call, keeping post-state and events (return values
dropped). -/
def stepEx (a : Act) (s : State) : Except Err (State × List Event) :=
  match a with
  | .createSub caller subscriber creator amount interval now =>
      match createSubscription caller subscriber creator amount interval now s with
      | .ok (s2, evs, _) => .ok (s2, evs)
      | .error e => .error e
  | .processPayment caller subscriptionId now =>
      processSubscriptionPayment caller subscriptionId now s
  | .cancelSub caller subscriptionId => cancelSubscription caller subscriptionId s
  | .tip caller user creator amount contentId =>
      sendTip caller user creator amount contentId s
  | .createEscrow caller creator amount contentId now =>
      match createMicropaymentEscrow caller creator amount contentId now s with
      | .ok (s2, evs, _) => .ok (s2, evs)
      | .error e => .error e
  | .releaseEscrow caller escrowId => releaseMicropayment caller escrowId s
  | .withdrawCreator caller => withdrawCreatorBalance caller s
  | .withdrawFees caller amount => withdrawPlatformFees caller amount s
  | .setAgent caller newAgent => setAgentWallet caller newAgent s
  | .setFee caller newFee => updatePlatformFee caller newFee s
  | .transferOwner caller newOwner => transferOwnership caller newOwner s
  | .renounceOwner caller => renounceOwnership caller s

/-- Post-state of an external call under EVM revert semantics: a failed
call leaves the state exactly as it was. -/
def applyAct (a : Act) (s : State) : State :=
  match stepEx a s with
  | .ok (s2, _) => s2
  | .error _ => s

/-- Whether an external call succeeds. -/
def actOk (a : Act) (s : State) : Bool :=
  match stepEx a s with
  | .ok _ => true
  | .error _ => false

/-- The revert reason of a failed external call. -/
def actErr (a : Act) (s : State) : Option Err :=
  match stepEx a s with
  | .ok _ => none
  | .error e => some e

/-- Events logged by an external call (a failed call logs nothing). -/
def actEvents (a : Act) (s : State) : List Event :=
  match stepEx a s with
  | .ok (_, evs) => evs
  | .error _ => []

/-- Iterate `processSubscriptionPayment` at the given block timestamps;
`none` as soon as one call fails. -/
def processN (caller : Addr) (subscriptionId : Nat) :
    List Nat → State → Option State
  | [], s => some s
  | t :: ts, s =>
      match processSubscriptionPayment caller subscriptionId t s with
      | .ok (s2, _) => processN caller subscriptionId ts s2
      | .error _ => none

/-- Ledger states reachable from a freshly constructed contract by any
sequence of external calls (the constructor requires nonzero token and
agent addresses). -/
inductive Reachable : State → Prop where
  | init (deployer agent caddr : Addr) (tok : Token) (hagent : agent ≠ 0) :
      Reachable (initialState deployer agent caddr tok)
  | step (a : Act) {s : State} : Reachable s → Reachable (applyAct a s)

/-! ## Success characterizations of the entry points -/

/-- Post-state of a successful `processSubscriptionPayment`. -/
def processPost (subscriptionId now : Nat) (tok : Token) (s : State) : State :=
  let sub := s.subscriptions subscriptionId
  { s with
      locked := false
      token := tok
      creatorBalances :=
        mapUpd s.creatorBalances sub.creator
          (s.creatorBalances sub.creator + (split sub.amount s.platformFee).2)
      subscriptions :=
        mapUpd s.subscriptions subscriptionId
          { sub with
              nextPaymentDue := now + sub.interval
              totalPaid := sub.totalPaid + sub.amount
              paymentsCount := sub.paymentsCount + 1 } }

theorem processSubscriptionPayment_ok {caller : Addr} {subscriptionId now : Nat}
    {s : State} {r : State × List Event}
    (h : processSubscriptionPayment caller subscriptionId now s = .ok r) :
    caller = s.agentWallet ∧ s.locked = false
      ∧ (s.subscriptions subscriptionId).active = true
      ∧ (s.subscriptions subscriptionId).nextPaymentDue ≤ now
      ∧ ∃ tok,
          s.token.transferFrom s.contractAddr
              (s.subscriptions subscriptionId).subscriber s.contractAddr
              (s.subscriptions subscriptionId).amount = some tok
          ∧ r = (processPost subscriptionId now tok s,
                 [Event.SubscriptionPaymentProcessed subscriptionId
                    (s.subscriptions subscriptionId).subscriber
                    (s.subscriptions subscriptionId).creator
                    (s.subscriptions subscriptionId).amount
                    (now + (s.subscriptions subscriptionId).interval)]) := by
  simp only [processSubscriptionPayment] at h
  split at h
  · simp at h
  next h1 =>
    split at h
    · simp at h
    next h2 =>
      split at h
      · simp at h
      next h3 =>
        split at h
        · simp at h
        next h4 =>
          split at h
          · simp at h
          next tok heq =>
            injection h with h
            subst h
            exact ⟨not_not.mp h1, by simpa using h2, by simpa using h3,
              Nat.le_of_not_lt h4, tok, heq, rfl⟩

/-- Post-state of a successful `createSubscription`. -/
def createSubPost (subscriber creator amount interval now : Nat) (tok : Token)
    (s : State) : State :=
  let subscriptionId := subIdOf subscriber creator now amount
  { s with
      locked := false
      token := tok
      creatorBalances :=
        mapUpd s.creatorBalances creator
          (s.creatorBalances creator + (split amount s.platformFee).2)
      subscriptions :=
        mapUpd s.subscriptions subscriptionId
          { subscriber := subscriber
            creator := creator
            amount := amount
            interval := interval
            nextPaymentDue := now + interval
            active := true
            totalPaid := amount
            paymentsCount := 1 }
      userSubscriptions :=
        mapUpd s.userSubscriptions subscriber
          (s.userSubscriptions subscriber ++ [subscriptionId])
      creatorSubscriptions :=
        mapUpd s.creatorSubscriptions creator
          (s.creatorSubscriptions creator ++ [subscriptionId]) }

theorem createSubscription_ok {caller subscriber creator : Addr}
    {amount interval now : Nat} {s : State} {r : State × List Event × Nat}
    (h : createSubscription caller subscriber creator amount interval now s = .ok r) :
    caller = s.agentWallet ∧ s.locked = false ∧ creator ≠ 0 ∧ subscriber ≠ 0
      ∧ amount ≠ 0 ∧ ONE_DAY ≤ interval
      ∧ (s.subscriptions (subIdOf subscriber creator now amount)).subscriber = 0
      ∧ ∃ tok,
          s.token.transferFrom s.contractAddr subscriber s.contractAddr amount
            = some tok
          ∧ r = (createSubPost subscriber creator amount interval now tok s,
                 [Event.SubscriptionCreated (subIdOf subscriber creator now amount)
                    subscriber creator amount interval,
                  Event.SubscriptionPaymentProcessed
                    (subIdOf subscriber creator now amount) subscriber creator
                    amount (now + interval)],
                 subIdOf subscriber creator now amount) := by
  simp only [createSubscription] at h
  split at h
  · simp at h
  next h1 =>
    split at h
    · simp at h
    next h2 =>
      split at h
      · simp at h
      next h3 =>
        split at h
        · simp at h
        next h4 =>
          split at h
          · simp at h
          next h5 =>
            split at h
            · simp at h
            next h6 =>
              split at h
              · simp at h
              next h7 =>
                split at h
                · simp at h
                next tok heq =>
                  injection h with h
                  subst h
                  exact ⟨not_not.mp h1, by simpa using h2, h3, h4, h5,
                    Nat.le_of_not_lt h6, not_not.mp h7, tok, heq, rfl⟩

/-- Post-state of a successful `sendTip`. -/
def tipPost (user creator amount : Nat) (tok : Token) (s : State) : State :=
  { s with
      locked := false
      token := tok
      creatorBalances :=
        mapUpd s.creatorBalances creator
          (s.creatorBalances creator + (split amount s.platformFee).2)
      totalTipsReceived :=
        mapUpd s.totalTipsReceived creator
          (s.totalTipsReceived creator + amount) }

theorem sendTip_ok {caller user creator : Addr} {amount : Nat}
    {contentId : String} {s : State} {r : State × List Event}
    (h : sendTip caller user creator amount contentId s = .ok r) :
    caller = s.agentWallet ∧ s.locked = false ∧ creator ≠ 0 ∧ user ≠ 0
      ∧ amount ≠ 0
      ∧ ∃ tok,
          s.token.transferFrom s.contractAddr user s.contractAddr amount
            = some tok
          ∧ r = (tipPost user creator amount tok s,
                 [Event.TipSent user creator amount contentId]) := by
  simp only [sendTip] at h
  split at h
  · simp at h
  next h1 =>
    split at h
    · simp at h
    next h2 =>
      split at h
      · simp at h
      next h3 =>
        split at h
        · simp at h
        next h4 =>
          split at h
          · simp at h
          next h5 =>
            split at h
            · simp at h
            next tok heq =>
              injection h with h
              subst h
              exact ⟨not_not.mp h1, by simpa using h2, h3, h4, h5, tok, heq, rfl⟩

/-- Post-state of a successful `createMicropaymentEscrow`. -/
def createEscrowPost (payer creator amount : Nat) (contentId : String)
    (now : Nat) (tok : Token) (s : State) : State :=
  { s with
      locked := false
      token := tok
      escrows :=
        mapUpd s.escrows (escIdOf payer creator contentId now)
          { payer := payer
            creator := creator
            amount := amount
            createdAt := now
            released := false
            contentId := contentId } }

theorem createMicropaymentEscrow_ok {caller creator : Addr} {amount : Nat}
    {contentId : String} {now : Nat} {s : State} {r : State × List Event × Nat}
    (h : createMicropaymentEscrow caller creator amount contentId now s = .ok r) :
    s.locked = false ∧ creator ≠ 0 ∧ amount ≠ 0
      ∧ (s.escrows (escIdOf caller creator contentId now)).payer = 0
      ∧ ∃ tok,
          s.token.transferFrom s.contractAddr caller s.contractAddr amount
            = some tok
          ∧ r = (createEscrowPost caller creator amount contentId now tok s,
                 [Event.MicropaymentEscrowed (escIdOf caller creator contentId now)
                    caller creator amount contentId],
                 escIdOf caller creator contentId now) := by
  simp only [createMicropaymentEscrow] at h
  split at h
  · simp at h
  next h1 =>
    split at h
    · simp at h
    next h2 =>
      split at h
      · simp at h
      next h3 =>
        split at h
        · simp at h
        next h4 =>
          split at h
          · simp at h
          next tok heq =>
            injection h with h
            subst h
            exact ⟨by simpa using h1, h2, h3, not_not.mp h4, tok, heq, rfl⟩

/-- Post-state of a successful `releaseMicropayment`. -/
def releasePost (escrowId : Nat) (s : State) : State :=
  let escrow := s.escrows escrowId
  { s with
      locked := false
      escrows := mapUpd s.escrows escrowId { escrow with released := true }
      creatorBalances :=
        mapUpd s.creatorBalances escrow.creator
          (s.creatorBalances escrow.creator + (split escrow.amount s.platformFee).2) }

theorem releaseMicropayment_ok {caller : Addr} {escrowId : Nat} {s : State}
    {r : State × List Event}
    (h : releaseMicropayment caller escrowId s = .ok r) :
    s.locked = false
      ∧ (caller = (s.escrows escrowId).payer ∨ caller = s.owner)
      ∧ (s.escrows escrowId).released = false
      ∧ r = (releasePost escrowId s,
             [Event.MicropaymentReleased escrowId (s.escrows escrowId).creator
                (split (s.escrows escrowId).amount s.platformFee).2]) := by
  simp only [releaseMicropayment] at h
  split at h
  · simp at h
  next h1 =>
    split at h
    · simp at h
    next h2 =>
      split at h
      · simp at h
      next h3 =>
        injection h with h
        subst h
        refine ⟨by simpa using h1, ?_, by simpa using h3, rfl⟩
        rcases Decidable.not_and_iff_or_not.mp h2 with h | h
        · exact Or.inl (not_not.mp h)
        · exact Or.inr (not_not.mp h)

/-- Post-state of a successful `cancelSubscription`. -/
def cancelPost (subscriptionId : Nat) (s : State) : State :=
  { s with
      subscriptions :=
        mapUpd s.subscriptions subscriptionId
          { s.subscriptions subscriptionId with active := false } }

theorem cancelSubscription_ok {caller : Addr} {subscriptionId : Nat} {s : State}
    {r : State × List Event}
    (h : cancelSubscription caller subscriptionId s = .ok r) :
    (caller = (s.subscriptions subscriptionId).subscriber ∨ caller = s.owner)
      ∧ (s.subscriptions subscriptionId).active = true
      ∧ r = (cancelPost subscriptionId s,
             [Event.SubscriptionCancelled subscriptionId
                (s.subscriptions subscriptionId).subscriber
                (s.subscriptions subscriptionId).creator]) := by
  simp only [cancelSubscription] at h
  split at h
  · simp at h
  next h1 =>
    split at h
    · simp at h
    next h2 =>
      injection h with h
      subst h
      refine ⟨?_, by simpa using h2, rfl⟩
      rcases Decidable.not_and_iff_or_not.mp h1 with h | h
      · exact Or.inl (not_not.mp h)
      · exact Or.inr (not_not.mp h)

/-- Post-state of a successful `withdrawCreatorBalance`. -/
def withdrawPost (caller : Addr) (tok : Token) (s : State) : State :=
  { s with
      locked := false
      token := tok
      creatorBalances := mapUpd s.creatorBalances caller 0 }

theorem withdrawCreatorBalance_ok {caller : Addr} {s : State}
    {r : State × List Event}
    (h : withdrawCreatorBalance caller s = .ok r) :
    s.locked = false ∧ s.creatorBalances caller ≠ 0
      ∧ ∃ tok,
          s.token.transfer s.contractAddr caller (s.creatorBalances caller)
            = some tok
          ∧ r = (withdrawPost caller tok s,
                 [Event.CreatorWithdrawal caller (s.creatorBalances caller)]) := by
  simp only [withdrawCreatorBalance, withdrawMidState] at h
  split at h
  · simp at h
  next h1 =>
    split at h
    · simp at h
    next h2 =>
      split at h
      · simp at h
      next tok heq =>
        injection h with h
        subst h
        exact ⟨by simpa using h1, h2, tok, heq, rfl⟩

theorem withdrawPlatformFees_ok {caller : Addr} {amount : Nat} {s : State}
    {r : State × List Event}
    (h : withdrawPlatformFees caller amount s = .ok r) :
    caller = s.owner ∧ s.locked = false
      ∧ ∃ tok,
          s.token.transfer s.contractAddr s.owner amount = some tok
          ∧ r = ({ s with locked := false, token := tok }, []) := by
  simp only [withdrawPlatformFees] at h
  split at h
  · simp at h
  next h1 =>
    split at h
    · simp at h
    next h2 =>
      split at h
      · simp at h
      next tok heq =>
        injection h with h
        subst h
        exact ⟨not_not.mp h1, by simpa using h2, tok, heq, rfl⟩

theorem setAgentWallet_ok {caller newAgent : Addr} {s : State}
    {r : State × List Event}
    (h : setAgentWallet caller newAgent s = .ok r) :
    caller = s.owner ∧ newAgent ≠ 0
      ∧ r = ({ s with agentWallet := newAgent },
             [Event.AgentWalletUpdated s.agentWallet newAgent]) := by
  simp only [setAgentWallet] at h
  split at h
  · simp at h
  next h1 =>
    split at h
    · simp at h
    next h2 =>
      injection h with h
      subst h
      exact ⟨not_not.mp h1, h2, rfl⟩

theorem updatePlatformFee_ok {caller : Addr} {newFee : Nat} {s : State}
    {r : State × List Event}
    (h : updatePlatformFee caller newFee s = .ok r) :
    caller = s.owner ∧ newFee ≤ 1000
      ∧ r = ({ s with platformFee := newFee },
             [Event.PlatformFeeUpdated s.platformFee newFee]) := by
  simp only [updatePlatformFee] at h
  split at h
  · simp at h
  next h1 =>
    split at h
    · simp at h
    next h2 =>
      injection h with h
      subst h
      exact ⟨not_not.mp h1, Nat.le_of_not_lt h2, rfl⟩

theorem transferOwnership_ok {caller newOwner : Addr} {s : State}
    {r : State × List Event}
    (h : transferOwnership caller newOwner s = .ok r) :
    caller = s.owner ∧ newOwner ≠ 0
      ∧ r = ({ s with owner := newOwner },
             [Event.OwnershipTransferred s.owner newOwner]) := by
  simp only [transferOwnership] at h
  split at h
  · simp at h
  next h1 =>
    split at h
    · simp at h
    next h2 =>
      injection h with h
      subst h
      exact ⟨not_not.mp h1, h2, rfl⟩

theorem renounceOwnership_ok {caller : Addr} {s : State}
    {r : State × List Event}
    (h : renounceOwnership caller s = .ok r) :
    caller = s.owner
      ∧ r = ({ s with owner := 0 }, [Event.OwnershipTransferred s.owner 0]) := by
  simp only [renounceOwnership] at h
  split at h
  · simp at h
  next h1 =>
    injection h with h
    subst h
    exact ⟨not_not.mp h1, rfl⟩

/-! ## Glue between `stepEx` and `applyAct`/`actOk`/`actEvents` -/

theorem actOk_exists {a : Act} {s : State} (h : actOk a s = true) :
    ∃ r, stepEx a s = .ok r := by
  unfold actOk at h
  cases hr : stepEx a s with
  | ok r => exact ⟨r, rfl⟩
  | error e => rw [hr] at h; simp at h

theorem actOk_of_ok {a : Act} {s : State} {r : State × List Event}
    (h : stepEx a s = .ok r) : actOk a s = true := by
  unfold actOk; rw [h]

theorem applyAct_eq {a : Act} {s : State} {r : State × List Event}
    (h : stepEx a s = .ok r) : applyAct a s = r.1 := by
  unfold applyAct; rw [h]

theorem actEvents_eq {a : Act} {s : State} {r : State × List Event}
    (h : stepEx a s = .ok r) : actEvents a s = r.2 := by
  unfold actEvents; rw [h]

theorem applyAct_error {a : Act} {s : State} {e : Err}
    (h : stepEx a s = .error e) : applyAct a s = s := by
  unfold applyAct; rw [h]

theorem actEvents_error {a : Act} {s : State} {e : Err}
    (h : stepEx a s = .error e) : actEvents a s = [] := by
  unfold actEvents; rw [h]

theorem stepEx_createSub_ok {caller subscriber creator : Addr}
    {amount interval now : Nat} {s : State} {r : State × List Event}
    (h : stepEx (.createSub caller subscriber creator amount interval now) s = .ok r) :
    ∃ tok,
      s.token.transferFrom s.contractAddr subscriber s.contractAddr amount
        = some tok
      ∧ r = (createSubPost subscriber creator amount interval now tok s,
             [Event.SubscriptionCreated (subIdOf subscriber creator now amount)
                subscriber creator amount interval,
              Event.SubscriptionPaymentProcessed
                (subIdOf subscriber creator now amount) subscriber creator
                amount (now + interval)]) := by
  simp only [stepEx] at h
  split at h
  next s2 evs q heq =>
    obtain ⟨-, -, -, -, -, -, -, tok, htok, hq⟩ := createSubscription_ok heq
    injection h with h
    subst h
    injection hq with h1 hrest
    injection hrest with h2 h3
    subst h1
    subst h2
    exact ⟨tok, htok, rfl⟩
  next e heq => simp at h

theorem stepEx_createEscrow_ok {caller creator : Addr} {amount : Nat}
    {contentId : String} {now : Nat} {s : State} {r : State × List Event}
    (h : stepEx (.createEscrow caller creator amount contentId now) s = .ok r) :
    ∃ tok,
      s.token.transferFrom s.contractAddr caller s.contractAddr amount
        = some tok
      ∧ r = (createEscrowPost caller creator amount contentId now tok s,
             [Event.MicropaymentEscrowed (escIdOf caller creator contentId now)
                caller creator amount contentId]) := by
  simp only [stepEx] at h
  split at h
  next s2 evs q heq =>
    obtain ⟨-, -, -, -, tok, htok, hq⟩ := createMicropaymentEscrow_ok heq
    injection h with h
    subst h
    injection hq with h1 hrest
    injection hrest with h2 h3
    subst h1
    subst h2
    exact ⟨tok, htok, rfl⟩
  next e heq => simp at h

/-! ## State invariants preserved by every external call -/

theorem platformFee_step (a : Act) (s : State) (h : s.platformFee ≤ 1000) :
    (applyAct a s).platformFee ≤ 1000 := by
  cases hr : stepEx a s with
  | error e => rw [applyAct_error hr]; exact h
  | ok r =>
    rw [applyAct_eq hr]
    cases a with
    | createSub caller subscriber creator amount interval now =>
      obtain ⟨tok, -, hq⟩ := stepEx_createSub_ok hr
      rw [hq]; exact h
    | processPayment caller sid now =>
      simp only [stepEx] at hr
      obtain ⟨-, -, -, -, tok, -, hq⟩ := processSubscriptionPayment_ok hr
      rw [hq]; exact h
    | cancelSub caller sid =>
      simp only [stepEx] at hr
      obtain ⟨-, -, hq⟩ := cancelSubscription_ok hr
      rw [hq]; exact h
    | tip caller user creator amount cid =>
      simp only [stepEx] at hr
      obtain ⟨-, -, -, -, -, tok, -, hq⟩ := sendTip_ok hr
      rw [hq]; exact h
    | createEscrow caller creator amount cid now =>
      obtain ⟨tok, -, hq⟩ := stepEx_createEscrow_ok hr
      rw [hq]; exact h
    | releaseEscrow caller eid =>
      simp only [stepEx] at hr
      obtain ⟨-, -, -, hq⟩ := releaseMicropayment_ok hr
      rw [hq]; exact h
    | withdrawCreator caller =>
      simp only [stepEx] at hr
      obtain ⟨-, -, tok, -, hq⟩ := withdrawCreatorBalance_ok hr
      rw [hq]; exact h
    | withdrawFees caller amount =>
      simp only [stepEx] at hr
      obtain ⟨-, -, tok, -, hq⟩ := withdrawPlatformFees_ok hr
      rw [hq]; exact h
    | setAgent caller newAgent =>
      simp only [stepEx] at hr
      obtain ⟨-, -, hq⟩ := setAgentWallet_ok hr
      rw [hq]; exact h
    | setFee caller newFee =>
      simp only [stepEx] at hr
      obtain ⟨-, hle, hq⟩ := updatePlatformFee_ok hr
      rw [hq]; exact hle
    | transferOwner caller newOwner =>
      simp only [stepEx] at hr
      obtain ⟨-, -, hq⟩ := transferOwnership_ok hr
      rw [hq]; exact h
    | renounceOwner caller =>
      simp only [stepEx] at hr
      obtain ⟨-, hq⟩ := renounceOwnership_ok hr
      rw [hq]; exact h

theorem platformFee_bounded {s : State} (h : Reachable s) :
    s.platformFee ≤ 1000 := by
  induction h with
  | init deployer agent caddr tok hagent => exact by norm_num [initialState]
  | step a hs ih => exact platformFee_step a _ ih

/-- The per-subscription audit-counter invariant. -/
def subCounterInv (s : State) : Prop :=
  ∀ id, (s.subscriptions id).totalPaid
    = (s.subscriptions id).amount * (s.subscriptions id).paymentsCount

theorem subCounterInv_step (a : Act) (s : State) (h : subCounterInv s) :
    subCounterInv (applyAct a s) := by
  intro id
  cases hr : stepEx a s with
  | error e => rw [applyAct_error hr]; exact h id
  | ok r =>
    rw [applyAct_eq hr]
    cases a with
    | createSub caller subscriber creator amount interval now =>
      obtain ⟨tok, -, hq⟩ := stepEx_createSub_ok hr
      rw [hq]
      simp only [createSubPost, mapUpd]
      split
      · simp
      · exact h id
    | processPayment caller sid now =>
      simp only [stepEx] at hr
      obtain ⟨-, -, -, -, tok, -, hq⟩ := processSubscriptionPayment_ok hr
      rw [hq]
      simp only [processPost, mapUpd]
      split
      · simp only []
        rw [h sid]
        ring
      · exact h id
    | cancelSub caller sid =>
      simp only [stepEx] at hr
      obtain ⟨-, -, hq⟩ := cancelSubscription_ok hr
      rw [hq]
      simp only [cancelPost, mapUpd]
      split
      · exact h sid
      · exact h id
    | tip caller user creator amount cid =>
      simp only [stepEx] at hr
      obtain ⟨-, -, -, -, -, tok, -, hq⟩ := sendTip_ok hr
      rw [hq]; exact h id
    | createEscrow caller creator amount cid now =>
      obtain ⟨tok, -, hq⟩ := stepEx_createEscrow_ok hr
      rw [hq]; exact h id
    | releaseEscrow caller eid =>
      simp only [stepEx] at hr
      obtain ⟨-, -, -, hq⟩ := releaseMicropayment_ok hr
      rw [hq]; exact h id
    | withdrawCreator caller =>
      simp only [stepEx] at hr
      obtain ⟨-, -, tok, -, hq⟩ := withdrawCreatorBalance_ok hr
      rw [hq]; exact h id
    | withdrawFees caller amount =>
      simp only [stepEx] at hr
      obtain ⟨-, -, tok, -, hq⟩ := withdrawPlatformFees_ok hr
      rw [hq]; exact h id
    | setAgent caller newAgent =>
      simp only [stepEx] at hr
      obtain ⟨-, -, hq⟩ := setAgentWallet_ok hr
      rw [hq]; exact h id
    | setFee caller newFee =>
      simp only [stepEx] at hr
      obtain ⟨-, -, hq⟩ := updatePlatformFee_ok hr
      rw [hq]; exact h id
    | transferOwner caller newOwner =>
      simp only [stepEx] at hr
      obtain ⟨-, -, hq⟩ := transferOwnership_ok hr
      rw [hq]; exact h id
    | renounceOwner caller =>
      simp only [stepEx] at hr
      obtain ⟨-, hq⟩ := renounceOwnership_ok hr
      rw [hq]; exact h id

theorem subCounterInv_reachable {s : State} (h : Reachable s) :
    subCounterInv s := by
  induction h with
  | init deployer agent caddr tok hagent =>
    intro id
    simp [initialState, emptySub]
  | step a hs ih => exact subCounterInv_step a _ ih

/-- No external call other than a creator's own withdrawal ever lowers
that creator's recorded balance. -/
theorem creatorBalances_mono (a : Act) (s : State) (c : Addr)
    (hne : a ≠ .withdrawCreator c) :
    s.creatorBalances c ≤ (applyAct a s).creatorBalances c := by
  cases hr : stepEx a s with
  | error e => rw [applyAct_error hr]
  | ok r =>
    rw [applyAct_eq hr]
    cases a with
    | createSub caller subscriber creator amount interval now =>
      obtain ⟨tok, -, hq⟩ := stepEx_createSub_ok hr
      rw [hq]
      simp only [createSubPost, mapUpd]
      split
      next hc => subst hc; exact Nat.le_add_right _ _
      next hc => exact Nat.le_refl _
    | processPayment caller sid now =>
      simp only [stepEx] at hr
      obtain ⟨-, -, -, -, tok, -, hq⟩ := processSubscriptionPayment_ok hr
      rw [hq]
      simp only [processPost, mapUpd]
      split
      next hc => subst hc; exact Nat.le_add_right _ _
      next hc => exact Nat.le_refl _
    | cancelSub caller sid =>
      simp only [stepEx] at hr
      obtain ⟨-, -, hq⟩ := cancelSubscription_ok hr
      rw [hq]; exact Nat.le_refl _
    | tip caller user creator amount cid =>
      simp only [stepEx] at hr
      obtain ⟨-, -, -, -, -, tok, -, hq⟩ := sendTip_ok hr
      rw [hq]
      simp only [tipPost, mapUpd]
      split
      next hc => subst hc; exact Nat.le_add_right _ _
      next hc => exact Nat.le_refl _
    | createEscrow caller creator amount cid now =>
      obtain ⟨tok, -, hq⟩ := stepEx_createEscrow_ok hr
      rw [hq]; exact Nat.le_refl _
    | releaseEscrow caller eid =>
      simp only [stepEx] at hr
      obtain ⟨-, -, -, hq⟩ := releaseMicropayment_ok hr
      rw [hq]
      simp only [releasePost, mapUpd]
      split
      next hc => subst hc; exact Nat.le_add_right _ _
      next hc => exact Nat.le_refl _
    | withdrawCreator caller =>
      have hcc : c ≠ caller := by
        intro hcq
        exact hne (by rw [hcq])
      simp only [stepEx] at hr
      obtain ⟨-, -, tok, -, hq⟩ := withdrawCreatorBalance_ok hr
      rw [hq]
      simp only [withdrawPost, mapUpd]
      split
      next hc => exact absurd hc hcc
      next hc => exact Nat.le_refl _
    | withdrawFees caller amount =>
      simp only [stepEx] at hr
      obtain ⟨-, -, tok, -, hq⟩ := withdrawPlatformFees_ok hr
      rw [hq]
    | setAgent caller newAgent =>
      simp only [stepEx] at hr
      obtain ⟨-, -, hq⟩ := setAgentWallet_ok hr
      rw [hq]
    | setFee caller newFee =>
      simp only [stepEx] at hr
      obtain ⟨-, -, hq⟩ := updatePlatformFee_ok hr
      rw [hq]
    | transferOwner caller newOwner =>
      simp only [stepEx] at hr
      obtain ⟨-, -, hq⟩ := transferOwnership_ok hr
      rw [hq]
    | renounceOwner caller =>
      simp only [stepEx] at hr
      obtain ⟨-, hq⟩ := renounceOwnership_ok hr
      rw [hq]

/-! ## Concrete test fixtures -/

/-- Test token: address 4 holds funds and has approved contract address 1. -/
def tokW : Token :=
  { balances := fun a => if a = 4 then 100000000 else 0
    allowance := fun o sp => if o = 4 ∧ sp = 1 then 100000000 else 0 }

/-- Test deployment over `tokW`: owner 2, agent 3, contract address 1. -/
def s0W : State := initialState 2 3 1 tokW

/-- Token with no balances and no allowances: every pull fails. -/
def tokN : Token :=
  { balances := fun _ => 0, allowance := fun _ _ => 0 }

/-- Test deployment over `tokN`. -/
def s0N : State := initialState 2 3 1 tokN

/-- Deployment with one active subscription stored at key 10: subscriber 4
pays creator 5 an amount of 1000000 every 86400 seconds, next due at 500. -/
def sSub : State :=
  { s0W with
      subscriptions :=
        mapUpd s0W.subscriptions 10 ⟨4, 5, 1000000, 86400, 500, true, 1000000, 1⟩ }

/-- State `sSub` with the reentrancy guard held (to probe nested calls). -/
def sSubLocked : State := { sSub with locked := true }

/-- Deployment where creator 5 has an accrued ledger balance of 700 and
the contract holds 1000 tokens. -/
def sBal : State :=
  { s0W with
      creatorBalances := mapUpd s0W.creatorBalances 5 700
      token := { balances := mapUpd tokW.balances 1 1000
                 allowance := tokW.allowance } }

/-- Deployment with one unreleased escrow stored at key 20: payer 4,
creator 5, amount 1000000. -/
def sEsc : State :=
  { s0W with
      escrows := mapUpd s0W.escrows 20 ⟨4, 5, 1000000, 100, false, "content-1"⟩ }

/-! ## Claims -/

/-- C1: every settled payment (subscription creation, due-payment
processing, tip, escrow release) splits the gross amount with
`platformCut = floor(A * feeBps / 10000)` and `creatorCut = A - platformCut`,
crediting the creator with exactly the creator cut; the two cuts sum to `A`
exactly for every rate `feeBps ≤ 10000`, and the contract's fee rate is at
most 1000 in every reachable state, so no settled payment loses any amount
to rounding. -/
theorem C1_fee_split_conservation :
    (∀ A feeBps : Nat,
        split A feeBps = (A * feeBps / 10000, A - A * feeBps / 10000))
  ∧ (∀ A feeBps : Nat, feeBps ≤ 10000 →
        (split A feeBps).1 + (split A feeBps).2 = A)
  ∧ (∀ s, Reachable s → s.platformFee ≤ 1000)
  ∧ (∀ caller subscriber creator amount interval now s,
        actOk (.createSub caller subscriber creator amount interval now) s = true →
        (applyAct (.createSub caller subscriber creator amount interval now) s).creatorBalances creator
          = s.creatorBalances creator + (split amount s.platformFee).2)
  ∧ (∀ caller sid now s,
        actOk (.processPayment caller sid now) s = true →
        (applyAct (.processPayment caller sid now) s).creatorBalances (s.subscriptions sid).creator
          = s.creatorBalances (s.subscriptions sid).creator
            + (split (s.subscriptions sid).amount s.platformFee).2)
  ∧ (∀ caller user creator amount cid s,
        actOk (.tip caller user creator amount cid) s = true →
        (applyAct (.tip caller user creator amount cid) s).creatorBalances creator
          = s.creatorBalances creator + (split amount s.platformFee).2)
  ∧ (∀ caller eid s,
        actOk (.releaseEscrow caller eid) s = true →
        (applyAct (.releaseEscrow caller eid) s).creatorBalances (s.escrows eid).creator
          = s.creatorBalances (s.escrows eid).creator
            + (split (s.escrows eid).amount s.platformFee).2) := by
  refine ⟨fun A feeBps => rfl, ?_, fun s h => platformFee_bounded h, ?_, ?_, ?_, ?_⟩
  · intro A feeBps hf
    have hle : A * feeBps / 10000 ≤ A := by
      calc A * feeBps / 10000
          ≤ A * 10000 / 10000 := Nat.div_le_div_right (Nat.mul_le_mul_left A hf)
        _ = A := Nat.mul_div_cancel A (by norm_num)
    simp only [split, FEE_DENOMINATOR]
    omega
  · intro caller subscriber creator amount interval now s h
    obtain ⟨r, hr⟩ := actOk_exists h
    rw [applyAct_eq hr]
    obtain ⟨tok, -, hq⟩ := stepEx_createSub_ok hr
    rw [hq]
    simp [createSubPost, mapUpd]
  · intro caller sid now s h
    obtain ⟨r, hr⟩ := actOk_exists h
    rw [applyAct_eq hr]
    simp only [stepEx] at hr
    obtain ⟨-, -, -, -, tok, -, hq⟩ := processSubscriptionPayment_ok hr
    rw [hq]
    simp [processPost, mapUpd]
  · intro caller user creator amount cid s h
    obtain ⟨r, hr⟩ := actOk_exists h
    rw [applyAct_eq hr]
    simp only [stepEx] at hr
    obtain ⟨-, -, -, -, -, tok, -, hq⟩ := sendTip_ok hr
    rw [hq]
    simp [tipPost, mapUpd]
  · intro caller eid s h
    obtain ⟨r, hr⟩ := actOk_exists h
    rw [applyAct_eq hr]
    simp only [stepEx] at hr
    obtain ⟨-, -, -, hq⟩ := releaseMicropayment_ok hr
    rw [hq]
    simp [releasePost, mapUpd]

/-- C1 witness: the split of 5000000 at 250 bps is (125000, 4875000), a
conserving split, and a concrete successful subscription creation credits
the creator with exactly the creator cut. -/
theorem C1_fee_split_conservation_witness :
    ((split 5000000 250).1 + (split 5000000 250).2 = 5000000)
  ∧ (split 5000000 250).1 = 125000
  ∧ (split 5000000 250).2 = 4875000
  ∧ s0W.platformFee ≤ 1000
  ∧ actOk (.createSub 3 4 5 5000000 2592000 1000) s0W = true
  ∧ (applyAct (.createSub 3 4 5 5000000 2592000 1000) s0W).creatorBalances 5
      = s0W.creatorBalances 5 + (split 5000000 s0W.platformFee).2 := by
  refine ⟨C1_fee_split_conservation.2.1 5000000 250 (by norm_num), by decide,
    by decide,
    C1_fee_split_conservation.2.2.1 s0W (Reachable.init 2 3 1 tokW (by decide)),
    by decide,
    C1_fee_split_conservation.2.2.2.1 3 4 5 5000000 2592000 1000 s0W (by decide)⟩

/-- C2: a call failing with `TransferFailed` leaves every component of the
ledger state unchanged and emits no event (revert semantics); moreover a
failing token pull inside `createSubscription` or
`processSubscriptionPayment` whose earlier validations pass does fail with
exactly `TransferFailed`. -/
theorem C2_transfer_failed_rollback :
    (∀ a s, actErr a s = some .TransferFailed →
        applyAct a s = s ∧ actEvents a s = [])
  ∧ (∀ caller subscriber creator amount interval now s,
        caller = s.agentWallet → s.locked = false → creator ≠ 0 →
        subscriber ≠ 0 → amount ≠ 0 → ONE_DAY ≤ interval →
        (s.subscriptions (subIdOf subscriber creator now amount)).subscriber = 0 →
        s.token.transferFrom s.contractAddr subscriber s.contractAddr amount = none →
        actErr (.createSub caller subscriber creator amount interval now) s
          = some .TransferFailed)
  ∧ (∀ caller sid now s,
        caller = s.agentWallet → s.locked = false →
        (s.subscriptions sid).active = true →
        (s.subscriptions sid).nextPaymentDue ≤ now →
        s.token.transferFrom s.contractAddr (s.subscriptions sid).subscriber
          s.contractAddr (s.subscriptions sid).amount = none →
        actErr (.processPayment caller sid now) s = some .TransferFailed) := by
  refine ⟨?_, ?_, ?_⟩
  · intro a s h
    unfold actErr at h
    cases hr : stepEx a s with
    | ok r => rw [hr] at h; simp at h
    | error e => exact ⟨applyAct_error hr, actEvents_error hr⟩
  · intro caller subscriber creator amount interval now s h1 h2 h3 h4 h5 h6 h7 h8
    have hc : createSubscription caller subscriber creator amount interval now s
        = .error .TransferFailed := by
      unfold createSubscription
      subst h1
      simp [h2, h3, h4, h5, h7, h8, Nat.not_lt.mpr h6]
    simp only [actErr, stepEx]
    rw [hc]
  · intro caller sid now s h1 h2 h3 h4 h5
    have hc : processSubscriptionPayment caller sid now s
        = .error .TransferFailed := by
      unfold processSubscriptionPayment
      subst h1
      simp [h2, h3, h5, Nat.not_lt.mpr h4]
    simp only [actErr, stepEx]
    rw [hc]

/-- C2 witness: with no token allowance, a concrete `createSubscription`
fails with exactly `TransferFailed` and the state and event log are
untouched. -/
theorem C2_transfer_failed_rollback_witness :
    actErr (.createSub 3 4 5 100 86400 1000) s0N = some Err.TransferFailed
  ∧ applyAct (.createSub 3 4 5 100 86400 1000) s0N = s0N
  ∧ actEvents (.createSub 3 4 5 100 86400 1000) s0N = [] := by
  have h2 := C2_transfer_failed_rollback.2.1 3 4 5 100 86400 1000 s0N rfl rfl
    (by decide) (by decide) (by decide) (by decide) rfl rfl
  have h1 := C2_transfer_failed_rollback.1 _ s0N h2
  exact ⟨h2, h1.1, h1.2⟩

/-- C3 counterexample: a subscription due at 500 with interval 86400,
processed at timestamp 600, ends with `nextPaymentDue = 87000`, not
`500 + 86400 = 86900`: the code sets `nextPaymentDue` from
`block.timestamp + interval`, so a late processing does not advance the
old `nextDue` by exactly `interval`. -/
theorem C3_nextdue_counterexample :
    actOk (.processPayment 3 10 600) sSub = true
  ∧ ((applyAct (.processPayment 3 10 600) sSub).subscriptions 10).nextPaymentDue = 87000
  ∧ (sSub.subscriptions 10).nextPaymentDue + (sSub.subscriptions 10).interval = 86900
  ∧ ¬ ((applyAct (.processPayment 3 10 600) sSub).subscriptions 10).nextPaymentDue
      = (sSub.subscriptions 10).nextPaymentDue + (sSub.subscriptions 10).interval := by
  exact ⟨by decide, by decide, by decide, by decide⟩

/-- C3 (amended): each successful `processSubscriptionPayment` sets the
subscription's `nextPaymentDue` to the processing timestamp plus
`interval`; since processing requires the timestamp to be at least the old
`nextPaymentDue`, the new `nextPaymentDue` is at least the old one plus
`interval` (equality exactly when processed at the due instant), so the
schedule always moves forward and is never retroactively reset. -/
theorem C3_nextdue_amended (caller : Addr) (sid now : Nat) (s : State)
    (h : actOk (.processPayment caller sid now) s = true) :
    ((applyAct (.processPayment caller sid now) s).subscriptions sid).nextPaymentDue
        = now + (s.subscriptions sid).interval
  ∧ (s.subscriptions sid).nextPaymentDue + (s.subscriptions sid).interval
        ≤ ((applyAct (.processPayment caller sid now) s).subscriptions sid).nextPaymentDue := by
  obtain ⟨r, hr⟩ := actOk_exists h
  rw [applyAct_eq hr]
  simp only [stepEx] at hr
  obtain ⟨-, -, -, hdue, tok, -, hq⟩ := processSubscriptionPayment_ok hr
  rw [hq]
  dsimp only
  have hpost : ((processPost sid now tok s).subscriptions sid).nextPaymentDue
      = now + (s.subscriptions sid).interval := by
    simp [processPost, mapUpd]
  refine ⟨hpost, ?_⟩
  rw [hpost]
  exact Nat.add_le_add_right hdue _

/-- C3 witness: the amended statement evaluated on the late processing of
the counterexample state. -/
theorem C3_nextdue_amended_witness :
    actOk (.processPayment 3 10 600) sSub = true
  ∧ ((applyAct (.processPayment 3 10 600) sSub).subscriptions 10).nextPaymentDue
      = 600 + (sSub.subscriptions 10).interval := by
  exact ⟨by decide, (C3_nextdue_amended 3 10 600 sSub (by decide)).1⟩

/-- Iterated successful due-payment processing adds exactly one payment of
the (unchanged) subscription amount per call. -/
theorem processN_counts (caller : Addr) (sid : Nat) (ts : List Nat) :
    ∀ s sFin : State, processN caller sid ts s = some sFin →
      (sFin.subscriptions sid).paymentsCount
          = (s.subscriptions sid).paymentsCount + ts.length
      ∧ (sFin.subscriptions sid).totalPaid
          = (s.subscriptions sid).totalPaid
            + (s.subscriptions sid).amount * ts.length
      ∧ (sFin.subscriptions sid).amount = (s.subscriptions sid).amount := by
  induction ts with
  | nil =>
    intro s sFin h
    simp only [processN, Option.some.injEq] at h
    subst h
    simp
  | cons t ts ih =>
    intro s sFin h
    simp only [processN] at h
    cases hr : processSubscriptionPayment caller sid t s with
    | error e => rw [hr] at h; simp at h
    | ok r =>
      obtain ⟨s2, evs⟩ := r
      rw [hr] at h
      obtain ⟨-, -, -, -, tok, -, hq⟩ := processSubscriptionPayment_ok hr
      injection hq with hq1 hq2
      subst hq1
      obtain ⟨hcount, htotal, hamount⟩ := ih _ _ h
      have hc2 : ((processPost sid t tok s).subscriptions sid).paymentsCount
          = (s.subscriptions sid).paymentsCount + 1 := by
        simp [processPost, mapUpd]
      have ht2 : ((processPost sid t tok s).subscriptions sid).totalPaid
          = (s.subscriptions sid).totalPaid + (s.subscriptions sid).amount := by
        simp [processPost, mapUpd]
      have ha2 : ((processPost sid t tok s).subscriptions sid).amount
          = (s.subscriptions sid).amount := by
        simp [processPost, mapUpd]
      rw [hc2] at hcount
      rw [ht2, ha2] at htotal
      rw [ha2] at hamount
      refine ⟨?_, ?_, ?_⟩
      · rw [hcount]
        simp only [List.length_cons]
        omega
      · rw [htotal]
        simp only [List.length_cons]
        ring
      · exact hamount

/-- C4: in every reachable ledger state every subscription satisfies
`totalPaid = amount * paymentsCount`; creation initializes the counters to
`paymentsCount = 1`, `totalPaid = amount`; and starting from any
subscription with those initial counters, `n` successful due-payment
processings leave `paymentsCount = n + 1` and
`totalPaid = amount * (n + 1)`. -/
theorem C4_subscription_counters :
    (∀ s, Reachable s → ∀ id,
        (s.subscriptions id).totalPaid
          = (s.subscriptions id).amount * (s.subscriptions id).paymentsCount)
  ∧ (∀ caller subscriber creator amount interval now s,
        actOk (.createSub caller subscriber creator amount interval now) s = true →
        (((applyAct (.createSub caller subscriber creator amount interval now) s).subscriptions
            (subIdOf subscriber creator now amount)).paymentsCount = 1
         ∧ ((applyAct (.createSub caller subscriber creator amount interval now) s).subscriptions
            (subIdOf subscriber creator now amount)).totalPaid = amount))
  ∧ (∀ caller sid ts s,
        (s.subscriptions sid).paymentsCount = 1 →
        (s.subscriptions sid).totalPaid = (s.subscriptions sid).amount →
        (processN caller sid ts s).isSome = true →
        (((processN caller sid ts s).getD s).subscriptions sid).paymentsCount
            = ts.length + 1
        ∧ (((processN caller sid ts s).getD s).subscriptions sid).totalPaid
            = (s.subscriptions sid).amount * (ts.length + 1)) := by
  refine ⟨fun s h => subCounterInv_reachable h, ?_, ?_⟩
  · intro caller subscriber creator amount interval now s h
    obtain ⟨r, hr⟩ := actOk_exists h
    rw [applyAct_eq hr]
    obtain ⟨tok, -, hq⟩ := stepEx_createSub_ok hr
    rw [hq]
    constructor
    · simp [createSubPost, mapUpd]
    · simp [createSubPost, mapUpd]
  · intro caller sid ts s h1 h2 h3
    obtain ⟨sFin, hs⟩ := Option.isSome_iff_exists.mp h3
    rw [hs, Option.getD_some]
    obtain ⟨hcount, htotal, -⟩ := processN_counts caller sid ts s sFin hs
    constructor
    · rw [hcount, h1]
      omega
    · rw [htotal, h2, Nat.mul_succ]
      exact Nat.add_comm _ _

/-- C4 witness: starting from a freshly created-counter subscription, two
successful processings (timestamps 600 and 90000) end with
`paymentsCount = 3` and `totalPaid = 3000000 = 1000000 * 3`; the reachable
invariant instance is evaluated on a reachable state. -/
theorem C4_subscription_counters_witness :
    (s0W.subscriptions 99).totalPaid
        = (s0W.subscriptions 99).amount * (s0W.subscriptions 99).paymentsCount
  ∧ (sSub.subscriptions 10).paymentsCount = 1
  ∧ (processN 3 10 [600, 90000] sSub).isSome = true
  ∧ (((processN 3 10 [600, 90000] sSub).getD sSub).subscriptions 10).paymentsCount = 3
  ∧ (((processN 3 10 [600, 90000] sSub).getD sSub).subscriptions 10).totalPaid = 3000000 := by
  have h4 := C4_subscription_counters.2.2 3 10 [600, 90000] sSub (by decide)
    (by decide) (by decide)
  exact ⟨C4_subscription_counters.1 s0W (Reachable.init 2 3 1 tokW (by decide)) 99,
    by decide, by decide, h4.1, h4.2⟩

/-- C5: outside a reentrant execution, `withdrawCreatorBalance` fails with
`NoBalanceToWithdraw` exactly when the caller's recorded balance is zero;
the caller's balance is zeroed in the ledger state in force at the moment
of the external token transfer (so a re-entrant withdrawal at that point
fails, by the guard, and would fail with `NoBalanceToWithdraw` even
without it); and on success the caller's balance ends at zero, the token
movement is exactly the balance held immediately before the call, and the
withdrawal event records that amount. -/
theorem C5_withdraw_zeroes_before_transfer (caller : Addr) (s : State)
    (h : s.locked = false) :
    (actErr (.withdrawCreator caller) s = some .NoBalanceToWithdraw
       ↔ s.creatorBalances caller = 0)
  ∧ (withdrawMidState caller s).creatorBalances caller = 0
  ∧ actErr (.withdrawCreator caller) (withdrawMidState caller s) = some .Reentrant
  ∧ actErr (.withdrawCreator caller)
        { withdrawMidState caller s with locked := false }
      = some .NoBalanceToWithdraw
  ∧ (actOk (.withdrawCreator caller) s = true →
       (applyAct (.withdrawCreator caller) s).creatorBalances caller = 0
     ∧ (applyAct (.withdrawCreator caller) s).token
         = (s.token.transfer s.contractAddr caller (s.creatorBalances caller)).getD s.token
     ∧ actEvents (.withdrawCreator caller) s
         = [Event.CreatorWithdrawal caller (s.creatorBalances caller)]) := by
  refine ⟨?_, by simp [withdrawMidState, mapUpd], ?_, ?_, ?_⟩
  · simp only [actErr, stepEx, withdrawCreatorBalance, withdrawMidState, h]
    by_cases hb : s.creatorBalances caller = 0
    · simp [hb]
    · simp only [hb, if_false, Bool.false_eq_true]
      cases ht : s.token.transfer s.contractAddr caller (s.creatorBalances caller) with
      | none => simp [ht, hb]
      | some tok => simp [ht, hb]
  · simp [actErr, stepEx, withdrawCreatorBalance, withdrawMidState]
  · simp [actErr, stepEx, withdrawCreatorBalance, withdrawMidState, mapUpd]
  · intro hok
    obtain ⟨r, hr⟩ := actOk_exists hok
    rw [applyAct_eq hr, actEvents_eq hr]
    simp only [stepEx] at hr
    obtain ⟨-, -, tok, htok, hq⟩ := withdrawCreatorBalance_ok hr
    rw [hq]
    refine ⟨by simp [withdrawPost, mapUpd], ?_, rfl⟩
    rw [htok]
    rfl

/-- C5 witness: creator 5 holds a recorded balance of 700; the failure
characterization, the pre-transfer zeroing and the exact-amount payout are
evaluated on this state. -/
theorem C5_withdraw_zeroes_before_transfer_witness :
    ¬ (actErr (.withdrawCreator 5) sBal = some Err.NoBalanceToWithdraw)
  ∧ (withdrawMidState 5 sBal).creatorBalances 5 = 0
  ∧ actErr (.withdrawCreator 5) (withdrawMidState 5 sBal) = some Err.Reentrant
  ∧ actOk (.withdrawCreator 5) sBal = true
  ∧ (applyAct (.withdrawCreator 5) sBal).creatorBalances 5 = 0
  ∧ (applyAct (.withdrawCreator 5) sBal).token.balances 5 = 700
  ∧ actEvents (.withdrawCreator 5) sBal = [Event.CreatorWithdrawal 5 700] := by
  have h := C5_withdraw_zeroes_before_transfer 5 sBal rfl
  have h5 := h.2.2.2.2 (by decide)
  refine ⟨?_, h.2.1, h.2.2.1, by decide, h5.1, by decide, h5.2.2⟩
  intro hcontra
  have := h.1.mp hcontra
  simp [sBal, s0W, initialState, mapUpd] at this

/-- C6: a release attempt by a caller who is neither the escrow payer nor
the owner fails with `UnauthorizedUser`; an authorized release of an
already-released escrow fails with `EscrowAlreadyReleased`; both failures
leave the state unchanged and emit nothing.  An authorized first release
succeeds, flips `released` to `true`, credits the escrow creator with
exactly the creator cut, and every subsequent release attempt on the same
escrow fails with `EscrowAlreadyReleased` (or `UnauthorizedUser` for an
unauthorized caller). -/
theorem C6_escrow_single_release (caller : Addr) (eid : Nat) (s : State)
    (h : s.locked = false) :
    (caller ≠ (s.escrows eid).payer → caller ≠ s.owner →
        actErr (.releaseEscrow caller eid) s = some .UnauthorizedUser
      ∧ applyAct (.releaseEscrow caller eid) s = s
      ∧ actEvents (.releaseEscrow caller eid) s = [])
  ∧ ((caller = (s.escrows eid).payer ∨ caller = s.owner) →
     (s.escrows eid).released = true →
        actErr (.releaseEscrow caller eid) s = some .EscrowAlreadyReleased
      ∧ applyAct (.releaseEscrow caller eid) s = s
      ∧ actEvents (.releaseEscrow caller eid) s = [])
  ∧ ((caller = (s.escrows eid).payer ∨ caller = s.owner) →
     (s.escrows eid).released = false →
        actOk (.releaseEscrow caller eid) s = true
      ∧ ((applyAct (.releaseEscrow caller eid) s).escrows eid).released = true
      ∧ (applyAct (.releaseEscrow caller eid) s).creatorBalances (s.escrows eid).creator
          = s.creatorBalances (s.escrows eid).creator
            + (split (s.escrows eid).amount s.platformFee).2
      ∧ (∀ caller2,
           actErr (.releaseEscrow caller2 eid)
               (applyAct (.releaseEscrow caller eid) s)
             = some .EscrowAlreadyReleased
           ∨ actErr (.releaseEscrow caller2 eid)
               (applyAct (.releaseEscrow caller eid) s)
             = some .UnauthorizedUser)) := by
  refine ⟨?_, ?_, ?_⟩
  · intro h1 h2
    have hstep : stepEx (.releaseEscrow caller eid) s = .error .UnauthorizedUser := by
      simp only [stepEx, releaseMicropayment, h]
      simp [h1, h2]
    exact ⟨by simp [actErr, hstep], applyAct_error hstep, actEvents_error hstep⟩
  · intro hauth hrel
    have hna : ¬ (caller ≠ (s.escrows eid).payer ∧ caller ≠ s.owner) := by
      rcases hauth with h1 | h1
      · exact fun hc => hc.1 h1
      · exact fun hc => hc.2 h1
    have hstep : stepEx (.releaseEscrow caller eid) s
        = .error .EscrowAlreadyReleased := by
      simp only [stepEx, releaseMicropayment, h]
      simp [hna, hrel]
    exact ⟨by simp [actErr, hstep], applyAct_error hstep, actEvents_error hstep⟩
  · intro hauth hrel
    have hna : ¬ (caller ≠ (s.escrows eid).payer ∧ caller ≠ s.owner) := by
      rcases hauth with h1 | h1
      · exact fun hc => hc.1 h1
      · exact fun hc => hc.2 h1
    have hstep : stepEx (.releaseEscrow caller eid) s
        = .ok (releasePost eid s,
               [Event.MicropaymentReleased eid (s.escrows eid).creator
                  (split (s.escrows eid).amount s.platformFee).2]) := by
      simp only [stepEx, releaseMicropayment, h]
      simp only [hna, if_false, hrel, Bool.false_eq_true, releasePost]
    rw [applyAct_eq hstep]
    refine ⟨actOk_of_ok hstep, by simp [releasePost, mapUpd], by simp [releasePost, mapUpd], ?_⟩
    intro caller2
    by_cases hc2 : caller2 ≠ ((releasePost eid s).escrows eid).payer
        ∧ caller2 ≠ (releasePost eid s).owner
    · right
      have hc2p : caller2 ≠ (s.escrows eid).payer ∧ caller2 ≠ s.owner := by
        simpa [releasePost, mapUpd] using hc2
      simp only [actErr, stepEx, releaseMicropayment]
      simp [releasePost, mapUpd, hc2p.1, hc2p.2]
    · left
      have hc2p : ¬ (caller2 ≠ (s.escrows eid).payer ∧ caller2 ≠ s.owner) := by
        simpa [releasePost, mapUpd] using hc2
      simp only [actErr, stepEx, releaseMicropayment]
      simp [releasePost, mapUpd, hc2p]

/-- C6 witness: on the escrow fixture, caller 7 (neither payer 4 nor
owner 2) is rejected with `UnauthorizedUser`; the payer's release
succeeds, marks the escrow released, credits creator 5 with 975000, and a
second release by the payer is rejected with `EscrowAlreadyReleased`. -/
theorem C6_escrow_single_release_witness :
    actErr (.releaseEscrow 7 20) sEsc = some Err.UnauthorizedUser
  ∧ applyAct (.releaseEscrow 7 20) sEsc = sEsc
  ∧ actOk (.releaseEscrow 4 20) sEsc = true
  ∧ ((applyAct (.releaseEscrow 4 20) sEsc).escrows 20).released = true
  ∧ (applyAct (.releaseEscrow 4 20) sEsc).creatorBalances 5 = 975000
  ∧ (actErr (.releaseEscrow 4 20) (applyAct (.releaseEscrow 4 20) sEsc)
       = some Err.EscrowAlreadyReleased
     ∨ actErr (.releaseEscrow 4 20) (applyAct (.releaseEscrow 4 20) sEsc)
       = some Err.UnauthorizedUser) := by
  have h := C6_escrow_single_release 7 20 sEsc rfl
  have h1 := h.1 (by decide) (by decide)
  have g := C6_escrow_single_release 4 20 sEsc rfl
  have g3 := g.2.2 (by decide) (by decide)
  exact ⟨h1.1, h1.2.1, g3.1, g3.2.1, by decide, g3.2.2.2 4⟩

/-- Reachable state for probing `withdrawPlatformFees`: a tip of 1000000
at the initial 250 bps rate leaves creator 5 with a recorded balance of
975000 and the contract holding 1000000 tokens, of which only 25000 are
accrued platform fees. -/
def sFees : State := applyAct (.tip 3 4 5 1000000 "c1") (initialState 2 3 1 tokW)

/-- C7: evaluation of `withdrawPlatformFees` at a failing input.  In the
reachable state `sFees` the un-withdrawn platform fees amount to 25000
(contract token holdings 1000000 minus the 975000 owed to creator 5), yet
the owner's `withdrawPlatformFees(500000)` SUCCEEDS — the code keeps no
platform-fee accumulator and performs no insufficient-funds check against
one, so the owner is paid 500000, 475000 of which back creator balances.
The claim requires this call to fail. -/
theorem C7_no_accumulator_check :
    Reachable sFees
  ∧ sFees.creatorBalances 5 = 975000
  ∧ sFees.token.balances 1 = 1000000
  ∧ sFees.token.balances 1 - sFees.creatorBalances 5 = 25000
  ∧ actOk (.withdrawFees 2 500000) sFees = true
  ∧ actErr (.withdrawFees 2 500000) sFees = none
  ∧ (applyAct (.withdrawFees 2 500000) sFees).token.balances 2 = 500000
  ∧ (applyAct (.withdrawFees 2 500000) sFees).token.balances 1 = 500000
  ∧ (applyAct (.withdrawFees 2 500000) sFees).creatorBalances 5 = 975000 := by
  exact ⟨Reachable.step (Act.tip 3 4 5 1000000 "c1")
          (Reachable.init 2 3 1 tokW (by decide)),
    by decide, by decide, by decide, by decide, by decide, by decide,
    by decide, by decide⟩

/-- C8: a `processSubscriptionPayment` issued by the agent on an active
subscription strictly before `nextPaymentDue` fails with `PaymentNotDue`
and changes no state and emits nothing; and after any successful
processing of a subscription whose interval satisfies the 1-day minimum,
an immediate second call at the same timestamp fails with
`PaymentNotDue`. -/
theorem C8_early_processing_rejected (caller : Addr) (sid now : Nat)
    (s : State) :
    (caller = s.agentWallet → s.locked = false →
     (s.subscriptions sid).active = true →
     now < (s.subscriptions sid).nextPaymentDue →
        actErr (.processPayment caller sid now) s = some .PaymentNotDue
      ∧ applyAct (.processPayment caller sid now) s = s
      ∧ actEvents (.processPayment caller sid now) s = [])
  ∧ (actOk (.processPayment caller sid now) s = true →
     ONE_DAY ≤ (s.subscriptions sid).interval →
        actErr (.processPayment caller sid now)
            (applyAct (.processPayment caller sid now) s)
          = some .PaymentNotDue) := by
  constructor
  · intro h1 h2 h3 h4
    have hstep : stepEx (.processPayment caller sid now) s
        = .error .PaymentNotDue := by
      simp only [stepEx, processSubscriptionPayment]
      subst h1
      simp [h2, h3, h4]
    exact ⟨by simp [actErr, hstep], applyAct_error hstep, actEvents_error hstep⟩
  · intro hok hint
    obtain ⟨r, hr⟩ := actOk_exists hok
    rw [applyAct_eq hr]
    simp only [stepEx] at hr
    obtain ⟨hagent, -, hactive, -, tok, -, hq⟩ := processSubscriptionPayment_ok hr
    rw [hq]
    have hlt : now < now + (s.subscriptions sid).interval := by
      have : 0 < (s.subscriptions sid).interval :=
        lt_of_lt_of_le (by norm_num [ONE_DAY]) hint
      omega
    simp only [actErr, stepEx, processSubscriptionPayment]
    subst hagent
    simp [processPost, mapUpd, hlt, hactive]

/-- C8 witness: on the subscription fixture (next due at 500, interval
86400), a call at timestamp 400 fails with `PaymentNotDue` leaving the
state untouched, and after the successful call at 600 an immediate second
call at 600 fails with `PaymentNotDue`. -/
theorem C8_early_processing_rejected_witness :
    actErr (.processPayment 3 10 400) sSub = some Err.PaymentNotDue
  ∧ applyAct (.processPayment 3 10 400) sSub = sSub
  ∧ actEvents (.processPayment 3 10 400) sSub = []
  ∧ actOk (.processPayment 3 10 600) sSub = true
  ∧ actErr (.processPayment 3 10 600) (applyAct (.processPayment 3 10 600) sSub)
      = some Err.PaymentNotDue := by
  have h1 := (C8_early_processing_rejected 3 10 400 sSub).1 rfl rfl (by decide)
    (by decide)
  have h2 := (C8_early_processing_rejected 3 10 600 sSub).2 (by decide) (by decide)
  exact ⟨h1.1, h1.2.1, h1.2.2, by decide, h2⟩

/-- C9 counterexample: `cancelSubscription` carries no `nonReentrant`
guard in the source, so with the ledger's reentrancy flag held (as it is
during any guarded entry point's own execution) a nested
`cancelSubscription` by the subscriber SUCCEEDS and mutates state instead
of failing with `Reentrant` — the claim that EVERY state-mutating entry
point rejects nested re-entry is false. -/
theorem C9_cancel_unguarded_counterexample :
    sSubLocked.locked = true
  ∧ actOk (.cancelSub 4 10) sSubLocked = true
  ∧ ¬ actErr (.cancelSub 4 10) sSubLocked = some Err.Reentrant
  ∧ ((applyAct (.cancelSub 4 10) sSubLocked).subscriptions 10).active = false := by
  exact ⟨rfl, by decide, by decide, by decide⟩

/-- C9 (amended): every entry point that performs an external token call —
`createSubscription`, `processSubscriptionPayment`, `sendTip`,
`createMicropaymentEscrow`, `releaseMicropayment`,
`withdrawCreatorBalance`, `withdrawPlatformFees` — is wrapped by the
reentrancy guard: invoked while the guard is held (nested re-entry during
a guarded execution) it fails with `Reentrant`.  `cancelSubscription`,
`setAgentWallet` and `updatePlatformFee` mutate state without the guard. -/
theorem C9_guarded_reject_reentry (s : State) (h : s.locked = true) :
    (∀ subscriber creator amount interval now,
        actErr (.createSub s.agentWallet subscriber creator amount interval now) s
          = some .Reentrant)
  ∧ (∀ sid now,
        actErr (.processPayment s.agentWallet sid now) s = some .Reentrant)
  ∧ (∀ user creator amount cid,
        actErr (.tip s.agentWallet user creator amount cid) s = some .Reentrant)
  ∧ (∀ caller creator amount cid now,
        actErr (.createEscrow caller creator amount cid now) s = some .Reentrant)
  ∧ (∀ caller eid, actErr (.releaseEscrow caller eid) s = some .Reentrant)
  ∧ (∀ caller, actErr (.withdrawCreator caller) s = some .Reentrant)
  ∧ (∀ amount, actErr (.withdrawFees s.owner amount) s = some .Reentrant) := by
  refine ⟨?_, ?_, ?_, ?_, ?_, ?_, ?_⟩
  · intro subscriber creator amount interval now
    simp [actErr, stepEx, createSubscription, h]
  · intro sid now
    simp [actErr, stepEx, processSubscriptionPayment, h]
  · intro user creator amount cid
    simp [actErr, stepEx, sendTip, h]
  · intro caller creator amount cid now
    simp [actErr, stepEx, createMicropaymentEscrow, h]
  · intro caller eid
    simp [actErr, stepEx, releaseMicropayment, h]
  · intro caller
    simp [actErr, stepEx, withdrawCreatorBalance, h]
  · intro amount
    simp [actErr, stepEx, withdrawPlatformFees, h]

/-- C9 witness: with the guard held on the subscription fixture, nested
calls into the guarded entry points fail with `Reentrant`. -/
theorem C9_guarded_reject_reentry_witness :
    sSubLocked.locked = true
  ∧ actErr (.withdrawCreator 9) sSubLocked = some Err.Reentrant
  ∧ actErr (.processPayment sSubLocked.agentWallet 10 600) sSubLocked
      = some Err.Reentrant
  ∧ actErr (.releaseEscrow 4 20) sSubLocked = some Err.Reentrant := by
  exact ⟨rfl, (C9_guarded_reject_reentry sSubLocked rfl).2.2.2.2.2.1 9,
    (C9_guarded_reject_reentry sSubLocked rfl).2.1 10 600,
    (C9_guarded_reject_reentry sSubLocked rfl).2.2.2.2.1 4 20⟩

/-- C10: no entry point other than a creator's own withdrawal ever lowers
that creator's recorded balance (in particular no owner or agent action
can confiscate it), and a successful withdrawal zeroes exactly the
caller's own entry, leaving every other creator's balance unchanged. -/
theorem C10_creator_balance_frame (a : Act) (s : State) (c : Addr) :
    (a ≠ .withdrawCreator c →
        s.creatorBalances c ≤ (applyAct a s).creatorBalances c)
  ∧ (∀ x, actOk (.withdrawCreator c) s = true →
        (applyAct (.withdrawCreator c) s).creatorBalances x
          = if x = c then 0 else s.creatorBalances x) := by
  constructor
  · exact creatorBalances_mono a s c
  · intro x hok
    obtain ⟨r, hr⟩ := actOk_exists hok
    rw [applyAct_eq hr]
    simp only [stepEx] at hr
    obtain ⟨-, -, tok, -, hq⟩ := withdrawCreatorBalance_ok hr
    rw [hq]
    simp [withdrawPost, mapUpd]

/-- C10 witness: on the balance fixture, an owner fee-rate change leaves
creator 5's balance intact, and creator 5's own withdrawal zeroes entry 5
while leaving creator 7's entry unchanged. -/
theorem C10_creator_balance_frame_witness :
    sBal.creatorBalances 5 ≤ (applyAct (.setFee 2 500) sBal).creatorBalances 5
  ∧ actOk (.withdrawCreator 5) sBal = true
  ∧ (applyAct (.withdrawCreator 5) sBal).creatorBalances 5 = 0
  ∧ (applyAct (.withdrawCreator 5) sBal).creatorBalances 7
      = sBal.creatorBalances 7 := by
  have h1 := (C10_creator_balance_frame (.setFee 2 500) sBal 5).1 (by decide)
  have h5 := (C10_creator_balance_frame (.withdrawCreator 5) sBal 5).2 5 (by decide)
  have h7 := (C10_creator_balance_frame (.withdrawCreator 5) sBal 5).2 7 (by decide)
  refine ⟨h1, by decide, by simpa using h5, by simpa using h7⟩

end SubMgr
